import Mathlib

/-!
Verification of the async-state-reducer pattern with unmount safety from
`src/exercise/02.extra-1.js`, and the additive counter reducer from
`src/exercise/01.extra-1.js`, via a shallow embedding into Lean.
The embedding is parametric in the data type `D` (fulfilment values) and
the error type `E` (rejection values).
-/

namespace AdvancedReactHooks

variable {D E : Type}

/-- The state held by `React.useReducer` in `useAsync`: a record with a
`status` string and nullable `data` / `error` fields (JS `null` is `none`). -/
structure AsyncState (D E : Type) where
  status : String
  data : Option D
  error : Option E
deriving DecidableEq, Repr

/-- A dispatched action: a record with a `type` string and optional
`data` / `error` payload fields, mirroring `{type: 'resolved', data}` etc. -/
structure Action (D E : Type) where
  type : String
  data : Option D := none
  error : Option E := none
deriving DecidableEq, Repr

/-- The `reducer` of `02.extra-1.js` (lines 14-32): a switch on `action.type`
producing a fresh state for `pending`/`resolved`/`rejected` and throwing
`Unhandled action type` on anything else.  The throw is modelled as
`Except.error` carrying the message the source builds. -/
def reducer (s : AsyncState D E) (a : Action D E) : Except String (AsyncState D E) :=
  if a.type = "pending" then
    Except.ok { status := "pending", data := none, error := none }
  else if a.type = "resolved" then
    Except.ok { status := "resolved", data := a.data, error := none }
  else if a.type = "rejected" then
    Except.ok { status := "rejected", data := none, error := a.error }
  else
    Except.error ("Unhandled action type: " ++ a.type)

/-- The state actually committed by a dispatch: when the reducer throws,
React does not commit any update, so the state is left as it was. -/
def applyAction (s : AsyncState D E) (a : Action D E) : AsyncState D E :=
  match reducer s a with
  | Except.ok s2 => s2
  | Except.error _ => s

/-- The initial state built by `useAsync` (lines 218-223):
`{data: null, error: null, status: 'idle', ...initialStatus}`, where the
caller in this repository only ever overrides `status`. -/
def initialState (st : Option String) : AsyncState D E :=
  { status := st.getD "idle", data := none, error := none }

/-- Canonical pending state produced by the reducer. -/
def pendingState : AsyncState D E :=
  { status := "pending", data := none, error := none }

/-- Canonical resolved state carrying the fulfilment value. -/
def resolvedState (d : D) : AsyncState D E :=
  { status := "resolved", data := some d, error := none }

/-- Canonical rejected state carrying the rejection value. -/
def rejectedState (e : E) : AsyncState D E :=
  { status := "rejected", data := none, error := some e }

/-- The `{type: 'pending'}` action dispatched at the start of `run`. -/
def pendingAction : Action D E := { type := "pending" }

/-- The action a settling promise dispatches: `{type: 'resolved', data}` on
fulfilment, `{type: 'rejected', error}` on rejection (lines 235-242). -/
def settleAction : Except E D → Action D E
  | Except.ok d => { type := "resolved", data := some d }
  | Except.error e => { type := "rejected", error := some e }

/-- The host component as seen by `useSafeDispatch`: the `mountedRef`
liveness flag, the reducer state, and a log of every action the underlying
(unsafe) dispatch has been invoked with. -/
structure Host (D E : Type) where
  mounted : Bool
  state : AsyncState D E
  log : List (Action D E)
deriving DecidableEq, Repr

/-- The raw `unsafeDispatch` returned by `useReducer`: it always receives
the action (recorded in `log`) and commits the reducer result when the
reducer does not throw. -/
def unsafeDispatch (h : Host D E) (a : Action D E) : Host D E :=
  { h with log := h.log ++ [a], state := applyAction h.state a }

/-- The guarded dispatch built by `useSafeDispatch` (lines 184-191):
forward to `unsafeDispatch` only when `mountedRef.current` is true,
otherwise do nothing at all. -/
def safeDispatch (h : Host D E) (a : Action D E) : Host D E :=
  if h.mounted then unsafeDispatch h a else h

/-- The cleanup of the mount effect (lines 205-210): sets
`mountedRef.current = false`; state and log are untouched. -/
def teardown (h : Host D E) : Host D E :=
  { h with mounted := false }

/-- A promise argument to `run`: `none` models a null/undefined argument,
`some outcome` a real future together with its eventual settlement. -/
abbrev Promise (D E : Type) := Option (Except E D)

/-- The synchronous part of `run` (lines 228-248): early-exit when the
argument is falsy, otherwise dispatch `{type: 'pending'}` immediately. -/
def runStart (h : Host D E) (p : Promise D E) : Host D E :=
  match p with
  | none => h
  | some _ => safeDispatch h pendingAction

/-- The asynchronous part of `run`: when the future settles, its
`then`-callback dispatches the corresponding settlement action.
A null argument registered no callback, so nothing happens. -/
def settle (h : Host D E) (p : Promise D E) : Host D E :=
  match p with
  | none => h
  | some out => safeDispatch h (settleAction out)

/-- One full run executed without interleaving: the synchronous dispatch
followed by the settlement of the same promise. -/
def runSettle (h : Host D E) (p : Promise D E) : Host D E :=
  settle (runStart h p) p

/-- The well-formedness invariant of §3 of the spec: the status is one of
the four variants, `data` is non-null only in `resolved`, and `error` is
non-null only in `rejected`. -/
def WellFormed (s : AsyncState D E) : Prop :=
  (s.status = "idle" ∨ s.status = "pending" ∨ s.status = "resolved" ∨
    s.status = "rejected")
  ∧ (s.data ≠ none → s.status = "resolved")
  ∧ (s.error ≠ none → s.status = "rejected")

instance [DecidableEq D] [DecidableEq E] (s : AsyncState D E) :
    Decidable (WellFormed s) := by
  unfold WellFormed
  infer_instance

/-- The variant-change transitions the spec allows: a settled variant into
`pending`, and `pending` into `resolved` or `rejected`. -/
def AllowedTransition (a b : String) : Prop :=
  ((a = "idle" ∨ a = "resolved" ∨ a = "rejected") ∧ b = "pending")
  ∨ (a = "pending" ∧ (b = "resolved" ∨ b = "rejected"))

/-- The list of states observed while a list of actions is committed in
order, starting state included. -/
def traceFrom (s : AsyncState D E) : List (Action D E) → List (AsyncState D E)
  | [] => [s]
  | a :: as => s :: traceFrom (applyAction s a) as

/-- The actions one run dispatches over its lifetime, in order. -/
def runActions : Promise D E → List (Action D E)
  | none => []
  | some out => [pendingAction, settleAction out]

/-- Consecutive pairs of a list. -/
def consecutivePairs : List α → List (α × α)
  | [] => []
  | [_] => []
  | a :: b :: r => (a, b) :: consecutivePairs (b :: r)

/-- The idle state `{status: 'idle', data: null, error: null}`. -/
def idleState : AsyncState D E :=
  { status := "idle", data := none, error := none }

/-- The state committed when a settlement action is dispatched. -/
def settledState : Except E D → AsyncState D E
  | Except.ok d => resolvedState d
  | Except.error e => rejectedState e

/-- The counter reducer of `01.extra-1.js` (lines 9-11): interprets the
dispatched value as an increment.  JS numbers on integer inputs are
modelled as `Int`. -/
def countReducer (state newState : Int) : Int :=
  state + newState

/-- The count shown after `k` clicks of a `Counter` created with the given
`initialCount` and `step`: each click dispatches `step` through
`countReducer` (line 13). -/
def counterAfterClicks (initialCount stp : Int) : Nat → Int
  | 0 => initialCount
  | k + 1 => countReducer (counterAfterClicks initialCount stp k) stp

/-! ## Helper lemmas -/

theorem applyAction_pending (s : AsyncState D E) :
    applyAction s pendingAction = pendingState := rfl

theorem applyAction_settle (s : AsyncState D E) (out : Except E D) :
    applyAction s (settleAction out) = settledState out := by
  cases out <;> rfl

theorem wellFormed_applyAction (s : AsyncState D E) (a : Action D E)
    (h : WellFormed s) : WellFormed (applyAction s a) := by
  by_cases hp : a.type = "pending"
  · simp +decide [applyAction, reducer, hp, WellFormed]
  by_cases hr : a.type = "resolved"
  · simp +decide [applyAction, reducer, hp, hr, WellFormed]
  by_cases hj : a.type = "rejected"
  · simp +decide [applyAction, reducer, hp, hr, hj, WellFormed]
  · simpa [applyAction, reducer, hp, hr, hj] using h

theorem wellFormed_traceFrom (s : AsyncState D E) (as : List (Action D E))
    (h0 : WellFormed s) : ∀ s2 ∈ traceFrom s as, WellFormed s2 := by
  induction as generalizing s with
  | nil =>
      intro s2 hs2
      simp [traceFrom] at hs2
      exact hs2 ▸ h0
  | cons a as ih =>
      intro s2 hs2
      simp [traceFrom] at hs2
      rcases hs2 with h | h
      · exact h ▸ h0
      · exact ih (applyAction s a) (wellFormed_applyAction s a h0) s2 h

/-! ## Claim theorems -/

/-- C1: for every `run(p)` with `p` a real future on a mounted host, the
state immediately transitions to Pending, and upon settlement to
Resolved{data} on success or Rejected{error} on failure; starting from
Idle the observed state sequence is Idle → Pending → Resolved{data} on
success and Idle → Pending → Rejected{error} on failure. -/
theorem run_lifecycle (h : Host D E) (out : Except E D) (hm : h.mounted = true) :
    (runStart h (some out)).state = pendingState
    ∧ (runSettle h (some out)).state = settledState out
    ∧ (h.state = idleState →
        traceFrom h.state (runActions (some out)) =
          [idleState, pendingState, settledState out]) := by
  refine ⟨?_, ?_, ?_⟩
  · simp [runStart, safeDispatch, unsafeDispatch, hm, applyAction_pending]
  · simp [runSettle, runStart, settle, safeDispatch, unsafeDispatch, hm,
      applyAction_pending, applyAction_settle]
  · intro hs
    simp [hs, runActions, traceFrom, applyAction_pending, applyAction_settle]

theorem run_lifecycle_witness :
    (runSettle (⟨true, idleState, []⟩ : Host Nat String)
      (some (Except.ok 25))).state = settledState (Except.ok 25) :=
  (run_lifecycle (⟨true, idleState, []⟩ : Host Nat String) (Except.ok 25) rfl).2.1

/-- C2: after teardown no state mutation is ever observable again: any
sequence of later dispatches (in particular the settlement of a future
that was pending at teardown) leaves the host exactly as it was at
teardown, and the underlying mutator receives nothing (the log is
unchanged). -/
theorem no_mutation_after_teardown (h : Host D E) (as : List (Action D E))
    (p : Promise D E) :
    List.foldl safeDispatch (teardown h) as = teardown h
    ∧ (settle (teardown h) p).state = h.state
    ∧ (settle (teardown h) p).log = h.log := by
  refine ⟨?_, ?_, ?_⟩
  · induction as with
    | nil => rfl
    | cons a as ih => simpa [safeDispatch, teardown] using ih
  · cases p <;> simp [settle, safeDispatch, teardown]
  · cases p <;> simp [settle, safeDispatch, teardown]

/-- C3: the safe dispatch drops the action entirely when the liveness flag
is false (state and underlying-call log untouched), and forwards it to the
underlying mutator when the flag is true. -/
theorem safeDispatch_liveness (h : Host D E) (a : Action D E) :
    (h.mounted = false → safeDispatch h a = h)
    ∧ (h.mounted = true → safeDispatch h a = unsafeDispatch h a) := by
  constructor <;> intro hm <;> simp [safeDispatch, hm]

theorem safeDispatch_liveness_witness :
    safeDispatch (⟨false, idleState, []⟩ : Host Nat String) pendingAction =
      ⟨false, idleState, []⟩ :=
  (safeDispatch_liveness (⟨false, idleState, []⟩ : Host Nat String)
    pendingAction).1 rfl

/-- C4: for every state and every action whose type is none of `pending`,
`resolved`, `rejected`, the reducer throws the fatal
`Unhandled action type` error, and a dispatch of such an action commits no
state change. -/
theorem reducer_unknown_action_fatal (h : Host D E) (a : Action D E)
    (h1 : a.type ≠ "pending") (h2 : a.type ≠ "resolved")
    (h3 : a.type ≠ "rejected") :
    reducer h.state a = Except.error ("Unhandled action type: " ++ a.type)
    ∧ (unsafeDispatch h a).state = h.state := by
  constructor
  · simp [reducer, h1, h2, h3]
  · simp [unsafeDispatch, applyAction, reducer, h1, h2, h3]

theorem reducer_unknown_action_fatal_witness :
    reducer (idleState : AsyncState Nat String) { type := "reset" } =
      Except.error ("Unhandled action type: " ++ "reset") :=
  (reducer_unknown_action_fatal (⟨true, idleState, []⟩ : Host Nat String)
    { type := "reset" } (by decide) (by decide) (by decide)).1

/-- C5: when `run` is handed no future (a null/undefined argument, or the
async callback returned nothing), neither the synchronous part nor any
settlement ever fires, and the entire host — status, data, error, log —
is left exactly as it was. -/
theorem run_null_no_state_change (h : Host D E) :
    runStart h none = h ∧ settle h none = h ∧ runSettle h none = h :=
  ⟨rfl, rfl, rfl⟩

/-- C6: starting from the initial state `useAsync` builds (status
overridden to `idle` or `pending` as `PokemonInfo` does), every state
reachable by any sequence of dispatched actions has status in
{idle, pending, resolved, rejected}, with `data` non-null only when
resolved and `error` non-null only when rejected. -/
theorem reachable_state_invariant (st : String) (as : List (Action D E))
    (hst : st = "idle" ∨ st = "pending") :
    ∀ s2 ∈ traceFrom (initialState (D := D) (E := E) (some st)) as,
      WellFormed s2 := by
  refine wellFormed_traceFrom _ as ?_
  rcases hst with h | h <;> simp +decide [h, initialState, WellFormed]

theorem reachable_state_invariant_witness :
    WellFormed (pendingState : AsyncState Nat String) :=
  reachable_state_invariant "idle" [pendingAction] (Or.inl rfl)
    pendingState (by decide)

/-- C7: within one run, state transitions are one-directional: in the
observed state sequence of a single `run`, every step that changes the
variant goes from Idle/Resolved/Rejected into Pending or from Pending
into Resolved/Rejected; no other variant change ever occurs. -/
theorem run_transitions_one_directional (s : AsyncState D E) (p : Promise D E)
    (hs : s.status = "idle" ∨ s.status = "pending" ∨ s.status = "resolved" ∨
      s.status = "rejected") :
    ∀ q ∈ consecutivePairs (traceFrom s (runActions p)),
      q.1.status ≠ q.2.status → AllowedTransition q.1.status q.2.status := by
  intro q hq hne
  cases p with
  | none => simp [runActions, traceFrom, consecutivePairs] at hq
  | some out =>
      have ht : traceFrom s (runActions (some out)) =
          [s, pendingState, settledState out] := by
        simp [runActions, traceFrom, applyAction_pending, applyAction_settle]
      rw [ht] at hq
      simp [consecutivePairs] at hq
      rcases hq with h | h
      · subst h
        simp only [pendingState] at hne ⊢
        rcases hs with h | h | h | h
        · exact Or.inl ⟨Or.inl h, rfl⟩
        · exact absurd h hne
        · exact Or.inl ⟨Or.inr (Or.inl h), rfl⟩
        · exact Or.inl ⟨Or.inr (Or.inr h), rfl⟩
      · subst h
        cases out with
        | ok d =>
            exact Or.inr ⟨rfl, Or.inl rfl⟩
        | error e =>
            exact Or.inr ⟨rfl, Or.inr rfl⟩

theorem run_transitions_one_directional_witness :
    AllowedTransition "idle" "pending" := by
  have hm : ((idleState : AsyncState Nat String), pendingState) ∈
      consecutivePairs (traceFrom (idleState : AsyncState Nat String)
        (runActions (some (Except.ok 7)))) := by decide
  have := run_transitions_one_directional
    (idleState : AsyncState Nat String) (some (Except.ok 7))
    (Or.inl rfl) (idleState, pendingState) hm (by decide)
  simpa using this

/-- C8: there is no de-duplication or cancellation: when a second run is
issued while the first is still pending, both settlements reach the
underlying mutator (both settlement actions are appended to the log), and
the final state is the one written by whichever settlement dispatches
last. -/
theorem overlapping_runs_last_write_wins (h : Host D E) (o1 o2 : Except E D)
    (hm : h.mounted = true) :
    (settle (settle (runStart (runStart h (some o1)) (some o2)) (some o1))
        (some o2)).state = settledState o2
    ∧ (settle (settle (runStart (runStart h (some o1)) (some o2)) (some o2))
        (some o1)).state = settledState o1
    ∧ (settle (settle (runStart (runStart h (some o1)) (some o2)) (some o1))
        (some o2)).log =
      h.log ++ [pendingAction, pendingAction, settleAction o1, settleAction o2]
    ∧ (settle (settle (runStart (runStart h (some o1)) (some o2)) (some o2))
        (some o1)).log =
      h.log ++ [pendingAction, pendingAction, settleAction o2, settleAction o1] := by
  refine ⟨?_, ?_, ?_, ?_⟩ <;>
    simp [runStart, settle, safeDispatch, unsafeDispatch, hm,
      applyAction_pending, applyAction_settle]

theorem overlapping_runs_last_write_wins_witness :
    (settle (settle (runStart (runStart (⟨true, idleState, []⟩ : Host Nat String)
        (some (Except.ok 1))) (some (Except.error "boom"))) (some (Except.ok 1)))
        (some (Except.error "boom"))).state = settledState (Except.error "boom") :=
  (overlapping_runs_last_write_wins (⟨true, idleState, []⟩ : Host Nat String)
    (Except.ok 1) (Except.error "boom") rfl).1

/-- C9: for every recognized action type, the reducer's result is fully
determined by the action alone: it never reads the previous state. -/
theorem reducer_state_independent (s1 s2 : AsyncState D E) (a : Action D E)
    (ha : a.type = "pending" ∨ a.type = "resolved" ∨ a.type = "rejected") :
    reducer s1 a = reducer s2 a := rfl

theorem reducer_state_independent_witness :
    reducer (idleState : AsyncState Nat String) pendingAction =
      reducer (pendingState : AsyncState Nat String) pendingAction :=
  reducer_state_independent idleState pendingState pendingAction (Or.inl rfl)

/-- C10: the counter reducer interprets the dispatched value as an
increment (`c + n`), so a `Counter` with `initialCount` `c0` and `step`
`s` shows `c0 + k*s` after `k` clicks, and with the defaults (`0`, `1`)
it shows `k`. -/
theorem counter_additive (c n c0 s : Int) (k : Nat) :
    countReducer c n = c + n
    ∧ counterAfterClicks c0 s k = c0 + k * s
    ∧ counterAfterClicks 0 1 k = (k : Int) := by
  have hgen : ∀ (a b : Int) (m : Nat), counterAfterClicks a b m = a + m * b := by
    intro a b m
    induction m with
    | zero => simp [counterAfterClicks]
    | succ m ih =>
        simp [counterAfterClicks, countReducer, ih]
        ring
  refine ⟨rfl, hgen c0 s k, ?_⟩
  simpa using hgen 0 1 k

end AdvancedReactHooks
